import Mathlib

/-!
Verification of the TransformState subsystem (transformState.I) against its
specification.  The inline accessors present in the source are embedded
directly; parts of the subsystem that live outside the reviewed source
(the registry internals, the composition computation, the component
constructors) are modelled from the specification, as marked on each
definition.  Machine floating-point scalars are modelled by exact
rationals; pointers are modelled by indices into a process-wide store,
so that pointer identity (used by is_identity / is_invalid) is index
equality.
-/

namespace Panda

/-- A scalar value (PN_stdfloat), modelled exactly by a rational. -/
abbrev Scal := ℚ

/-- LVecBase3: a 3-component vector. -/
structure Vec3 where
  x : Scal
  y : Scal
  z : Scal
deriving DecidableEq

/-- LVecBase2: a 2-component vector. -/
structure Vec2 where
  x : Scal
  y : Scal
deriving DecidableEq

/-- LVecBase3::zero(). -/
def vzero : Vec3 := ⟨0, 0, 0⟩

/-- LMatrix4: a 4x4 matrix of scalars. -/
def Mat4 := Fin 4 → Fin 4 → Scal

instance : DecidableEq Mat4 := fun m n =>
  if h : ∀ i j, m i j = n i j then
    .isTrue (funext fun i => funext fun j => h i j)
  else
    .isFalse (fun he => h (fun i j => by rw [he]))

/-- LMatrix4::ident_mat(). -/
def idMat : Mat4 := fun i j => if i = j then 1 else 0

/-- Matrix multiplication (row-vector convention, as in the numeric library). -/
def matMul (m n : Mat4) : Mat4 := fun i j =>
  m i 0 * n 0 j + m i 1 * n 1 j + m i 2 * n 2 j + m i 3 * n 3 j

/-- A pure translation matrix: upper-left identity, translation in row 3. -/
def transMat (p : Vec3) : Mat4 := fun i j =>
  if i.val = 3 then
    (if j.val = 0 then p.x else if j.val = 1 then p.y else if j.val = 2 then p.z else 1)
  else if i = j then 1 else 0

/-- Scale and shear matrix: diagonal scale with lower-triangular shear terms. -/
def scaleShearMat (s sh : Vec3) : Mat4 := fun i j =>
  if i.val = 0 ∧ j.val = 0 then s.x
  else if i.val = 1 ∧ j.val = 1 then s.y
  else if i.val = 2 ∧ j.val = 2 then s.z
  else if i.val = 3 ∧ j.val = 3 then 1
  else if i.val = 1 ∧ j.val = 0 then sh.x
  else if i.val = 2 ∧ j.val = 0 then sh.y
  else if i.val = 2 ∧ j.val = 1 then sh.z
  else 0

/-- NEARLY_ZERO: the fixed numeric epsilon of the numeric library. -/
def nearlyZero : Scal := 1 / 1000000

/-- IS_NEARLY_EQUAL(a, b): true when the two scalars differ by less than the
fixed epsilon (the absolute-value comparison written as a two-sided bound). -/
def isNearlyEqual (a b : Scal) : Bool :=
  -nearlyZero < a - b && a - b < nearlyZero

/-- LVecBase3::almost_equal against the zero vector: componentwise epsilon
comparison. -/
def shearAlmostZero (sh : Vec3) : Bool :=
  isNearlyEqual sh.x 0 && isNearlyEqual sh.y 0 && isNearlyEqual sh.z 0

/-- Modelled from the spec: the external Numeric Transform Algebra (spec 2:
vectors, matrices, quaternions are consumed, not reimplemented).  The two
operations the claims exercise are the conversion of a rotation (Euler triple
or a 2-d angle) to a rotation matrix, and matrix inversion, which returns
nothing exactly when the matrix is singular. -/
structure NumAlgebra where
  hprToRot : Vec3 → Mat4
  rot2dToRot : Scal → Mat4
  invertMat : Mat4 → Option Mat4

/-- 3x3 determinant of a submatrix view. -/
def det3 (m : Fin 3 → Fin 3 → Scal) : Scal :=
  m 0 0 * (m 1 1 * m 2 2 - m 1 2 * m 2 1)
  - m 0 1 * (m 1 0 * m 2 2 - m 1 2 * m 2 0)
  + m 0 2 * (m 1 0 * m 2 1 - m 1 1 * m 2 0)

/-- Index embedding skipping row/column r: used to form minors of a 4x4. -/
def skipIdx (r : Fin 4) (i : Fin 3) : Fin 4 :=
  if h : i.val < r.val then ⟨i.val, by omega⟩ else ⟨i.val + 1, by omega⟩

/-- The 3x3 minor of a 4x4 matrix obtained by deleting row r and column c. -/
def minorAt (m : Mat4) (r c : Fin 4) : Fin 3 → Fin 3 → Scal :=
  fun i j => m (skipIdx r i) (skipIdx c j)

/-- Cofactor sign. -/
def cofSign (i j : Fin 4) : Scal := if (i.val + j.val) % 2 = 0 then 1 else -1

/-- 4x4 determinant by cofactor expansion along the first row. -/
def det4 (m : Mat4) : Scal :=
  m 0 0 * det3 (minorAt m 0 0) - m 0 1 * det3 (minorAt m 0 1)
  + m 0 2 * det3 (minorAt m 0 2) - m 0 3 * det3 (minorAt m 0 3)

/-- Adjugate-based 4x4 matrix inverse: fails exactly on singular matrices.
This is the model instance of the external library's invert operation. -/
def invert4 (m : Mat4) : Option Mat4 :=
  let d := det4 m
  if d = 0 then none
  else some (fun i j => cofSign j i * det3 (minorAt m j i) / d)

/-- The model instance of the external numeric algebra.  Matrix inversion is
implemented exactly (adjugate over the rationals).  The rotation conversions
return the identity rotation; they are correct at zero rotation, which is the
only rotation angle any claim exercises (exact trigonometry at other angles is
not representable over the rationals). -/
def modelAlgebra : NumAlgebra where
  hprToRot := fun _ => idMat
  rot2dToRot := fun _ => idMat
  invertMat := invert4

/-- A pointer to a TransformState: an index into the process-wide store. -/
abbrev Ptr := Nat

/-- One TransformState object.  The C++ bitmask _flags is split into named
booleans; the lazily-derived fields (_inv_mat, the F_singular / scale flags)
appear with their eventual derived values, since per the spec (4.2) the
check-then-calculate derivation is referentially transparent.  The _hash field
keeps its lazy sentinel (H_unknown is modelled as none), as claim-relevant
code manipulates it explicitly.  The two composition caches (spec 4.3) are
slot lists, where an empty slot (a removed entry) is none. -/
structure TSData where
  mat : Mat4
  valid : Bool
  is2d : Bool
  componentsGiven : Bool
  pos : Vec3
  hpr : Vec3
  scale : Vec3
  shear : Vec3
  uniformScale : Bool
  identityScale : Bool
  nonzeroShear : Bool
  singular : Bool
  invMat : Option Mat4
  hash : Option Nat
  compCache : List (Option (Ptr × Ptr))
  invCompCache : List (Option (Ptr × Ptr))
deriving DecidableEq

/-- The process-wide state of the subsystem: the interned TransformStates and
the two singleton pointers (_identity_state, _invalid_state).  The inited flag
models the _states_lock-is-allocated test that guards lazy initialization. -/
structure Store where
  states : List TSData
  inited : Bool
  identityState : Option Ptr
  invalidState : Option Ptr
deriving DecidableEq

/-- The state of the process before the subsystem is first used. -/
def emptyStore : Store := ⟨[], false, none, none⟩

/-- The content of the identity singleton. -/
def idData : TSData where
  mat := idMat
  valid := true
  is2d := false
  componentsGiven := true
  pos := vzero
  hpr := vzero
  scale := ⟨1, 1, 1⟩
  shear := vzero
  uniformScale := true
  identityScale := true
  nonzeroShear := false
  singular := false
  invMat := some idMat
  hash := none
  compCache := []
  invCompCache := []

/-- The content of the invalid singleton (the result of inverting a singular
matrix): it is the only state whose valid flag is unset. -/
def invalidData : TSData where
  mat := idMat
  valid := false
  is2d := false
  componentsGiven := false
  pos := vzero
  hpr := vzero
  scale := vzero
  shear := vzero
  uniformScale := false
  identityScale := false
  nonzeroShear := false
  singular := true
  invMat := none
  hash := none
  compCache := []
  invCompCache := []

/-- Modelled from the spec: init_states() (absent from the source, which only
shows its guard) performs the one-time construction of the registry and of the
identity and invalid singletons, cached for the process lifetime. -/
def init_states (s : Store) : Store :=
  if s.inited then s
  else ⟨[idData, invalidData], true, some 0, some 1⟩

/-- make_identity(): lazily initializes the subsystem on first use, then
returns the identity singleton. -/
def make_identity (s : Store) : Ptr × Store :=
  let s := init_states s
  (s.identityState.getD 0, s)

/-- make_invalid(): lazily initializes the subsystem on first use, then
returns the invalid singleton. -/
def make_invalid (s : Store) : Ptr × Store :=
  let s := init_states s
  (s.invalidState.getD 1, s)

/-- is_identity(): a pointer-identity check against the identity singleton. -/
def is_identity (s : Store) (p : Ptr) : Bool := s.identityState = some p

/-- is_invalid(): a pointer-identity check against the invalid singleton. -/
def is_invalid (s : Store) (p : Ptr) : Bool := s.invalidState = some p

/-- Dereference a pointer. -/
def dataAt (s : Store) (p : Ptr) : Option TSData := s.states.get? p

/-- Modelled from the spec: registry equality (spec 4.1, "an existing entry
whose value compares equal").  Two states are registry-equal when they denote
the same transform: same matrix, same validity, and the same 2-d flag (2-d
values interoperate with, but stay distinct from, their 3-d counterparts,
spec 3). -/
def regEq (d e : TSData) : Prop :=
  d.mat = e.mat ∧ d.valid = e.valid ∧ d.is2d = e.is2d

instance (d e : TSData) : Decidable (regEq d e) := by
  unfold regEq; infer_instance

/-- Index of the first registry-equal entry, if any. -/
def findEqIdx (d : TSData) : List TSData → Option Nat
  | [] => none
  | e :: rest => if regEq d e then some 0 else (findEqIdx d rest).map (· + 1)

/-- Modelled from the spec: Registry.intern (spec 4.1): look up an existing
entry that compares equal and return it, discarding the candidate; otherwise
insert the candidate as the new canonical instance and return it. -/
def intern (d : TSData) (s : Store) : Ptr × Store :=
  let s := init_states s
  match findEqIdx d s.states with
  | some i => (i, s)
  | none => (s.states.length, { s with states := s.states ++ [d] })

/-- check_uniform_scale(): called immediately after _scale is set, checks for
an identity and/or uniform scale and a non-zero shear and sets the bits
(the C++ sets flag bits with a bitmask OR, rendered here as boolean OR). -/
def check_uniform_scale (d : TSData) : TSData :=
  let us := isNearlyEqual d.scale.x d.scale.y && isNearlyEqual d.scale.x d.scale.z
  { d with
    uniformScale := d.uniformScale || us
    identityScale := d.identityScale || (us && isNearlyEqual d.scale.x 1)
    nonzeroShear := d.nonzeroShear || !(shearAlmostZero d.shear) }

/-- check_uniform_scale2d(): the 2-d variant: when the x and y scales are
nearly equal, the z scale is overwritten with the x scale before the uniform
bit is set. -/
def check_uniform_scale2d (d : TSData) : TSData :=
  let us := isNearlyEqual d.scale.x d.scale.y
  { d with
    scale := if us then ⟨d.scale.x, d.scale.y, d.scale.x⟩ else d.scale
    uniformScale := d.uniformScale || us
    identityScale := d.identityScale || (us && isNearlyEqual d.scale.x 1)
    nonzeroShear := d.nonzeroShear || !(shearAlmostZero d.shear) }

/-- Modelled from the spec: the matrix denoted by a componentwise 3-d
construction (spec 4.2, component-given values derive the matrix): scale and
shear, then rotation, then translation, in the numeric library's row-vector
convention. -/
def composeMat (A : NumAlgebra) (pos hpr scale shear : Vec3) : Mat4 :=
  matMul (matMul (scaleShearMat scale shear) (A.hprToRot hpr)) (transMat pos)

/-- Modelled from the spec: the fresh candidate built by the componentwise
constructor (spec 4.2, from_pos_hpr_scale_shear), before interning. -/
def componentData (A : NumAlgebra) (pos hpr scale shear : Vec3) : TSData :=
  let m := composeMat A pos hpr scale shear
  check_uniform_scale
    { mat := m
      valid := true
      is2d := false
      componentsGiven := true
      pos := pos
      hpr := hpr
      scale := scale
      shear := shear
      uniformScale := false
      identityScale := false
      nonzeroShear := false
      singular := (A.invertMat m).isNone
      invMat := A.invertMat m
      hash := none
      compCache := []
      invCompCache := [] }

/-- make_pos_hpr_scale_shear(): modelled from the spec (the constructor body
is absent from the source): build the componentwise candidate and intern it. -/
def make_pos_hpr_scale_shear (A : NumAlgebra) (pos hpr scale shear : Vec3)
    (s : Store) : Ptr × Store :=
  intern (componentData A pos hpr scale shear) s

/-- make_pos_hpr_scale(): delegates with a zero shear. -/
def make_pos_hpr_scale (A : NumAlgebra) (pos hpr scale : Vec3) (s : Store) :
    Ptr × Store :=
  make_pos_hpr_scale_shear A pos hpr scale vzero s

/-- make_pos(): delegates with zero rotation and unit scale. -/
def make_pos (A : NumAlgebra) (pos : Vec3) (s : Store) : Ptr × Store :=
  make_pos_hpr_scale A pos ⟨0, 0, 0⟩ ⟨1, 1, 1⟩ s

/-- make_hpr(): delegates with zero position and unit scale. -/
def make_hpr (A : NumAlgebra) (hpr : Vec3) (s : Store) : Ptr × Store :=
  make_pos_hpr_scale A ⟨0, 0, 0⟩ hpr ⟨1, 1, 1⟩ s

/-- make_scale(const LVecBase3 &): the 3-vector scale factory. -/
def make_scale_vec3 (A : NumAlgebra) (scale : Vec3) (s : Store) : Ptr × Store :=
  make_pos_hpr_scale A ⟨0, 0, 0⟩ ⟨0, 0, 0⟩ scale s

/-- make_shear(): delegates with zero position and rotation, unit scale. -/
def make_shear (A : NumAlgebra) (shear : Vec3) (s : Store) : Ptr × Store :=
  make_pos_hpr_scale_shear A ⟨0, 0, 0⟩ ⟨0, 0, 0⟩ ⟨1, 1, 1⟩ shear s

/-- Modelled from the spec: the fresh candidate built by the 2-d
componentwise constructor: a value built from a 2-d factory is flagged is_2d;
its 3-d fields hold the embedded 2-d components (z position 0, z scale 1),
and check_uniform_scale2d runs immediately after the scale is set. -/
def componentData2d (A : NumAlgebra) (pos : Vec2) (rotate : Scal) (scale : Vec2)
    (shear : Scal) : TSData :=
  let m := matMul (matMul (scaleShearMat ⟨scale.x, scale.y, 1⟩ ⟨shear, 0, 0⟩)
    (A.rot2dToRot rotate)) (transMat ⟨pos.x, pos.y, 0⟩)
  check_uniform_scale2d
    { mat := m
      valid := true
      is2d := true
      componentsGiven := true
      pos := ⟨pos.x, pos.y, 0⟩
      hpr := ⟨rotate, 0, 0⟩
      scale := ⟨scale.x, scale.y, 1⟩
      shear := ⟨shear, 0, 0⟩
      uniformScale := false
      identityScale := false
      nonzeroShear := false
      singular := (A.invertMat m).isNone
      invMat := A.invertMat m
      hash := none
      compCache := []
      invCompCache := [] }

/-- make_pos_rotate_scale_shear2d(): modelled from the spec (the constructor
body is absent from the source): build the 2-d candidate and intern it. -/
def make_pos_rotate_scale_shear2d (A : NumAlgebra) (pos : Vec2) (rotate : Scal)
    (scale : Vec2) (shear : Scal) (s : Store) : Ptr × Store :=
  intern (componentData2d A pos rotate scale shear) s

/-- make_pos_rotate_scale2d(): delegates with a zero shear. -/
def make_pos_rotate_scale2d (A : NumAlgebra) (pos : Vec2) (rotate : Scal)
    (scale : Vec2) (s : Store) : Ptr × Store :=
  make_pos_rotate_scale_shear2d A pos rotate scale 0 s

/-- make_pos2d(): delegates with zero rotation and unit scale. -/
def make_pos2d (A : NumAlgebra) (pos : Vec2) (s : Store) : Ptr × Store :=
  make_pos_rotate_scale2d A pos 0 ⟨1, 1⟩ s

/-- make_rotate2d(): delegates with zero position and unit scale. -/
def make_rotate2d (A : NumAlgebra) (rotate : Scal) (s : Store) : Ptr × Store :=
  make_pos_rotate_scale2d A ⟨0, 0⟩ rotate ⟨1, 1⟩ s

/-- make_scale2d(PN_stdfloat): a uniform 2-d scale. -/
def make_scale2d (A : NumAlgebra) (scale : Scal) (s : Store) : Ptr × Store :=
  make_pos_rotate_scale2d A ⟨0, 0⟩ 0 ⟨scale, scale⟩ s

/-- make_scale(PN_stdfloat): the source maps the 3-d uniform scale factory to
the 2-d version ("might as well call it a 2-d scale"). -/
def make_scale (A : NumAlgebra) (scale : Scal) (s : Store) : Ptr × Store :=
  make_scale2d A scale s

/-- Modelled from the spec: the fresh candidate built by the
construct-from-matrix factory: no components given, singularity a derived
flag. -/
def matData (A : NumAlgebra) (m : Mat4) : TSData where
  mat := m
  valid := true
  is2d := false
  componentsGiven := false
  pos := vzero
  hpr := vzero
  scale := vzero
  shear := vzero
  uniformScale := false
  identityScale := false
  nonzeroShear := false
  singular := (A.invertMat m).isNone
  invMat := A.invertMat m
  hash := none
  compCache := []
  invCompCache := []

/-- Modelled from the spec: construct-from-matrix (spec 4.1/6).  A matrix
equal to the identity yields the identity singleton (the spec's example
scenario requires composing a value with its inverse to return the identity
singleton itself); any other matrix interns as whatever value it is, with
singularity a derived flag, not a constructor-time error. -/
def make_mat (A : NumAlgebra) (m : Mat4) (s : Store) : Ptr × Store :=
  if m = idMat then make_identity s else intern (matData A m) s

/-- has_pos(): the pos component is extractable unless the transform is the
invalid singleton. -/
def has_pos (s : Store) (p : Ptr) : Bool := !(is_invalid s p)

/-- has_mat(): the transform can be described as a matrix unless it is the
invalid singleton. -/
def has_mat (s : Store) (p : Ptr) : Bool := !(is_invalid s p)

/-- is_2d(): reads the F_is_2d flag (set only by the 2-d factories). -/
def is_2d (s : Store) (p : Ptr) : Bool :=
  match dataAt s p with
  | some d => d.is2d
  | none => false

/-- is_singular(): reads the (derived) F_is_singular flag. -/
def is_singular (d : TSData) : Bool := d.singular

/-- has_uniform_scale(): reads the (derived) F_uniform_scale flag. -/
def has_uniform_scale (d : TSData) : Bool := d.uniformScale

/-- get_mat(): asserts has_mat() with the identity matrix as the assertion
fallback, then returns the (derived) matrix. -/
def get_mat (s : Store) (p : Ptr) : Mat4 :=
  if !(has_mat s p) then idMat
  else
    match dataAt s p with
    | some d => d.mat
    | none => idMat

/-- get_scale(): returns the (derived) _scale vector; the nassertr fallback
is _scale itself, so the stored vector is returned in every case. -/
def get_scale (s : Store) (p : Ptr) : Vec3 :=
  match dataAt s p with
  | some d => d.scale
  | none => vzero

/-- get_inverse_mat(): the stored inverse when the transform is not singular
(with a null-pointer assertion fallback), and a null pointer when it is. -/
def get_inverse_mat (d : TSData) : Option Mat4 :=
  if !(is_singular d) then
    match d.invMat with
    | some m => some m
    | none => none
  else none

/-- The result of a representation accessor guarded by nassertr: either a
normal return, or an assertion-style contract violation that yields the
declared fallback value. -/
inductive AssertResult (α : Type) where
  | ok (val : α)
  | violation (fallback : α)
deriving DecidableEq

/-- get_uniform_scale(): asserts has_uniform_scale() (fallback _scale[0]) and
returns _scale[0]. -/
def get_uniform_scale (d : TSData) : AssertResult Scal :=
  if has_uniform_scale d then .ok d.scale.x else .violation d.scale.x

/-- get_pos2d(): asserts has_pos() and is_2d() (fallback the zero 2-vector)
and returns the x/y components of _pos. -/
def get_pos2d (s : Store) (p : Ptr) : AssertResult Vec2 :=
  match dataAt s p with
  | some d =>
      if has_pos s p && d.is2d then .ok ⟨d.pos.x, d.pos.y⟩
      else .violation ⟨0, 0⟩
  | none => .violation ⟨0, 0⟩

/-- SimpleHashMap::get_num_entries() on a composition cache: the number of
occupied slots. -/
def cacheNumEntries (c : List (Option (Ptr × Ptr))) : Nat :=
  (c.filterMap id).length

/-- get_composition_cache_num_entries(). -/
def get_composition_cache_num_entries (d : TSData) : Nat :=
  cacheNumEntries d.compCache

/-- get_invert_composition_cache_num_entries(). -/
def get_invert_composition_cache_num_entries (d : TSData) : Nat :=
  cacheNumEntries d.invCompCache

/-- get_composition_cache_size(): like the num_entries accessor, this returns
_composition_cache.get_num_entries(). -/
def get_composition_cache_size (d : TSData) : Nat :=
  cacheNumEntries d.compCache

/-- get_invert_composition_cache_size(): like the num_entries accessor, this
returns _invert_composition_cache.get_num_entries(). -/
def get_invert_composition_cache_size (d : TSData) : Nat :=
  cacheNumEntries d.invCompCache

/-- Cache lookup: find the result stored for the given other operand,
tolerating empty slots. -/
def cacheLookup (c : List (Option (Ptr × Ptr))) (b : Ptr) : Option Ptr :=
  (c.filterMap id).lookup b

/-- Record a composition-cache entry on state a. -/
def storeCompCache (s : Store) (a b r : Ptr) : Store :=
  match s.states.get? a with
  | some da =>
      { s with states := s.states.set a { da with compCache := some (b, r) :: da.compCache } }
  | none => s

/-- Record an invert-composition-cache entry on state a. -/
def storeInvCompCache (s : Store) (a b r : Ptr) : Store :=
  match s.states.get? a with
  | some da =>
      { s with states := s.states.set a { da with invCompCache := some (b, r) :: da.invCompCache } }
  | none => s

/-- compose(a, b): modelled from the spec (4.3): if a is identity return b;
if b is identity return a; if either is invalid return the invalid singleton;
otherwise consult a's composition cache, and on a miss compute the matrix
composition, intern it, record it in a's cache, and return it. -/
def compose (A : NumAlgebra) (s : Store) (a b : Ptr) : Ptr × Store :=
  if is_identity s a then (b, s)
  else if is_identity s b then (a, s)
  else if is_invalid s a || is_invalid s b then make_invalid s
  else
    match dataAt s a, dataAt s b with
    | some da, some db =>
        match cacheLookup da.compCache b with
        | some r => (r, s)
        | none =>
            let rs := make_mat A (matMul db.mat da.mat) s
            (rs.1, storeCompCache rs.2 a b rs.1)
    | _, _ => make_invalid s

/-- invert_compose(a, b): modelled from the spec (4.3): the same
cache-then-compute pattern on a separate cache, contractually equivalent to
composing a's inverse with b; inverting a singular transform yields the
invalid singleton (spec 7). -/
def invert_compose (A : NumAlgebra) (s : Store) (a b : Ptr) : Ptr × Store :=
  if is_invalid s a || is_invalid s b then make_invalid s
  else
    match dataAt s a, dataAt s b with
    | some da, some db =>
        match cacheLookup da.invCompCache b with
        | some r => (r, s)
        | none =>
            match A.invertMat da.mat with
            | none =>
                let rs := make_invalid s
                (rs.1, storeInvCompCache rs.2 a b rs.1)
            | some mi =>
                let rs := make_mat A (matMul db.mat mi) s
                (rs.1, storeInvCompCache rs.2 a b rs.1)
    | _, _ => make_invalid s

/-- get_inverse(): invert_compose with the identity transform. -/
def get_inverse (A : NumAlgebra) (s : Store) (p : Ptr) : Ptr × Store :=
  let is := make_identity s
  invert_compose A is.2 p is.1

/-- The comparison threshold used by the one-argument compare_to (the
uniquify threshold).  Modelled from the spec (9, open question): the two
thresholds are independently configurable constants; compare_to's is the
looser of the two. -/
def uniquifyMatrixEps : Scal := 1 / 1000

/-- The comparison threshold used by operator == (the equality epsilon). -/
def equalEps : Scal := 1 / 100000

/-- Quantize a scalar at a threshold: the floor of its multiple of the
threshold (floor division of the numerator by the denominator). -/
def quantize (eps x : Scal) : ℤ :=
  Int.fdiv (x / eps).num (x / eps).den

/-- The comparison key of a matrix at a threshold: its 16 entries
quantized. -/
def matKey (eps : Scal) (m : Mat4) : List ℤ :=
  [quantize eps (m 0 0), quantize eps (m 0 1), quantize eps (m 0 2), quantize eps (m 0 3),
   quantize eps (m 1 0), quantize eps (m 1 1), quantize eps (m 1 2), quantize eps (m 1 3),
   quantize eps (m 2 0), quantize eps (m 2 1), quantize eps (m 2 2), quantize eps (m 2 3),
   quantize eps (m 3 0), quantize eps (m 3 1), quantize eps (m 3 2), quantize eps (m 3 3)]

/-- The comparison key of a TransformState at a threshold: the significant
flags followed by the quantized matrix. -/
def valueKey (eps : Scal) (d : TSData) : List ℤ :=
  (if d.valid then 1 else 0) :: (if d.is2d then 1 else 0) :: matKey eps d.mat

/-- Three-way lexicographic comparison of integer lists. -/
def compareList : List ℤ → List ℤ → ℤ
  | [], [] => 0
  | [], _ :: _ => -1
  | _ :: _, [] => 1
  | a :: as, b :: bs => if a < b then -1 else if b < a then 1 else compareList as bs

/-- Modelled from the spec: the two-argument compare_to (absent from the
source): an arbitrary ordering among all unique TransformStates at the given
threshold, via lexicographic comparison of quantized comparison keys. -/
def compareAt (eps : Scal) (d e : TSData) : ℤ :=
  compareList (valueKey eps d) (valueKey eps e)

/-- The one-argument compare_to: delegates at the uniquify threshold. -/
def compare_to (d e : TSData) : ℤ := compareAt uniquifyMatrixEps d e

/-- Modelled from the spec: operator == (absent from the source): equality at
the equality epsilon, a very slightly different threshold from compare_to. -/
def operatorEq (d e : TSData) : Bool := compareAt equalEps d e = 0

/-- operator !=: the opposite of operator ==. -/
def operatorNe (d e : TSData) : Bool := !(operatorEq d e)

/-- Modelled from the spec: the hash computation (absent from the source),
computed from the canonical representation with the same epsilon semantics as
equality: a deterministic fold over the equality-threshold comparison key. -/
def hashOf (d : TSData) : Nat :=
  (valueKey equalEps d).foldl (fun a z => a * 31 + z.natAbs) 7

/-- calc_hash(): fills in the cached hash. -/
def calc_hash (d : TSData) : TSData := { d with hash := some (hashOf d) }

/-- check_hash(): computes the hash only when it is still unknown. -/
def check_hash (d : TSData) : TSData :=
  if d.hash = none then calc_hash d else d

/-- get_hash(): ensures the hash is known and returns it, together with the
(possibly updated) object state. -/
def get_hash (d : TSData) : Nat × TSData :=
  let d := check_hash d
  (d.hash.getD 0, d)

/-- A sample TransformState whose matrix is the identity. -/
def d5a : TSData where
  mat := idMat
  valid := true
  is2d := false
  componentsGiven := false
  pos := vzero
  hpr := vzero
  scale := vzero
  shear := vzero
  uniformScale := false
  identityScale := false
  nonzeroShear := false
  singular := false
  invMat := some idMat
  hash := none
  compCache := []
  invCompCache := []

/-- A matrix differing from the identity by less than the uniquify threshold
but by more than the equality epsilon. -/
def m5 : Mat4 := fun i j =>
  if i = 0 then (if j = 1 then 1 / 2000 else idMat i j) else idMat i j

/-- A sample TransformState very slightly different from d5a: compare_to
orders it equal to d5a while operator == distinguishes the two. -/
def d5b : TSData := { d5a with mat := m5 }

/-- The 2-d transform with a unit uniform scale: its matrix equals the
identity matrix, yet it is a distinct instance from the identity singleton. -/
def twoDUnit : Ptr × Store := make_scale2d modelAlgebra 1 emptyStore

/-- The spec example scenario (spec 8): the transform built by
make_pos_hpr_scale((1,2,3),(0,0,0),(1,1,1)). -/
def scenT (A : NumAlgebra) : Ptr × Store :=
  make_pos_hpr_scale A ⟨1, 2, 3⟩ ⟨0, 0, 0⟩ ⟨1, 1, 1⟩ emptyStore

/-- The spec example scenario: the inverse of that transform, via
get_inverse. -/
def scenInv (A : NumAlgebra) : Ptr × Store :=
  get_inverse A (scenT A).2 (scenT A).1

/-- The spec example scenario: the inverse composed with the original
transform. -/
def scenBack (A : NumAlgebra) : Ptr × Store :=
  compose A (scenInv A).2 (scenInv A).1 (scenT A).1

/-- The content of the scenario transform, for an external inverse mi of its
translation matrix. -/
def c8td (mi : Mat4) : TSData where
  mat := transMat ⟨1, 2, 3⟩
  valid := true
  is2d := false
  componentsGiven := true
  pos := ⟨1, 2, 3⟩
  hpr := ⟨0, 0, 0⟩
  scale := ⟨1, 1, 1⟩
  shear := vzero
  uniformScale := true
  identityScale := true
  nonzeroShear := false
  singular := false
  invMat := some mi
  hash := none
  compCache := []
  invCompCache := []

/-- The store after interning the scenario transform. -/
def c8store1 (mi : Mat4) : Store :=
  ⟨[idData, invalidData, c8td mi], true, some 0, some 1⟩

/-- The scenario transform with its invert-composition cache entry recorded. -/
def c8td2 (mi : Mat4) : TSData :=
  { c8td mi with invCompCache := [some (0, 3)] }

/-- The store after computing the scenario inverse. -/
def c8store2 (A : NumAlgebra) (mi : Mat4) : Store :=
  ⟨[idData, invalidData, c8td2 mi, matData A mi], true, some 0, some 1⟩

/-! General lemmas about the embedding. -/

theorem compareList_eq_zero_iff (xs : List ℤ) :
    ∀ ys, compareList xs ys = 0 ↔ xs = ys := by
  induction xs with
  | nil => intro ys; cases ys <;> simp [compareList]
  | cons x xs ih =>
    intro ys
    cases ys with
    | nil => simp [compareList]
    | cons y ys =>
      simp only [compareList]
      by_cases h1 : x < y
      · simp only [if_pos h1]
        constructor
        · intro h; omega
        · intro h; injection h with h2 h3; omega
      · simp only [if_neg h1]
        by_cases h2 : y < x
        · simp only [if_pos h2]
          constructor
          · intro h; omega
          · intro h; injection h with h3 h4; omega
        · simp only [if_neg h2]
          have hxy : x = y := by omega
          rw [ih ys, hxy]
          simp

theorem compareList_neg (xs : List ℤ) :
    ∀ ys, compareList xs ys = -compareList ys xs := by
  induction xs with
  | nil => intro ys; cases ys <;> simp [compareList]
  | cons x xs ih =>
    intro ys
    cases ys with
    | nil => simp [compareList]
    | cons y ys =>
      simp only [compareList]
      by_cases h1 : x < y
      · have h2 : ¬y < x := by omega
        simp [h1, h2]
      · by_cases h2 : y < x
        · simp [h1, h2]
        · simp [h1, h2, ih ys]

theorem compareList_trans (xs : List ℤ) :
    ∀ ys zs, compareList xs ys ≤ 0 → compareList ys zs ≤ 0 →
      compareList xs zs ≤ 0 := by
  induction xs with
  | nil =>
    intro ys zs _ _
    cases zs <;> simp [compareList]
  | cons x xs ih =>
    intro ys zs h1 h2
    cases ys with
    | nil => simp [compareList] at h1
    | cons y ys =>
      cases zs with
      | nil => simp [compareList] at h2
      | cons z zs =>
        simp only [compareList] at h1 h2 ⊢
        by_cases hxy : x < y
        · by_cases hyz : y < z
          · have hxz : x < z := by omega
            simp [hxz]
          · by_cases hzy : z < y
            · simp [hyz, hzy] at h2
            · have hxz : x < z := by omega
              simp [hxz]
        · by_cases hyx : y < x
          · simp [hxy, hyx] at h1
          · by_cases hyz : y < z
            · have hxz : x < z := by omega
              simp [hxz]
            · by_cases hzy : z < y
              · simp [hyz, hzy] at h2
              · have hxz : ¬x < z := by omega
                have hzx : ¬z < x := by omega
                simp only [if_neg hxz, if_neg hzx]
                simp only [if_neg hxy, if_neg hyx] at h1
                simp only [if_neg hyz, if_neg hzy] at h2
                exact ih ys zs h1 h2

theorem get?_append_singleton {α : Type} (l : List α) (d : α) :
    (l ++ [d]).get? l.length = some d := by
  induction l with
  | nil => rfl
  | cons a t ih => simp [ih]

theorem init_states_inited (s : Store) : (init_states s).inited = true := by
  unfold init_states
  split
  · next h => exact h
  · rfl

theorem init_states_of_inited {s : Store} (h : s.inited = true) :
    init_states s = s := by
  simp [init_states, h]

theorem init_states_idem (s : Store) :
    init_states (init_states s) = init_states s :=
  init_states_of_inited (init_states_inited s)

theorem check_uniform_scale_proj (d : TSData) :
    (check_uniform_scale d).mat = d.mat
  ∧ (check_uniform_scale d).valid = d.valid
  ∧ (check_uniform_scale d).is2d = d.is2d
  ∧ (check_uniform_scale d).componentsGiven = d.componentsGiven
  ∧ (check_uniform_scale d).pos = d.pos
  ∧ (check_uniform_scale d).scale = d.scale
  ∧ (check_uniform_scale d).singular = d.singular
  ∧ (check_uniform_scale d).invMat = d.invMat :=
  ⟨rfl, rfl, rfl, rfl, rfl, rfl, rfl, rfl⟩

theorem check_uniform_scale2d_proj (d : TSData) :
    (check_uniform_scale2d d).mat = d.mat
  ∧ (check_uniform_scale2d d).valid = d.valid
  ∧ (check_uniform_scale2d d).is2d = d.is2d
  ∧ (check_uniform_scale2d d).componentsGiven = d.componentsGiven
  ∧ (check_uniform_scale2d d).pos = d.pos
  ∧ (check_uniform_scale2d d).singular = d.singular
  ∧ (check_uniform_scale2d d).invMat = d.invMat :=
  ⟨rfl, rfl, rfl, rfl, rfl, rfl, rfl⟩

theorem findEqIdx_some {d : TSData} :
    ∀ {l : List TSData} {i : Nat}, findEqIdx d l = some i →
      ∃ e, l.get? i = some e ∧ regEq d e := by
  intro l
  induction l with
  | nil => intro i h; simp [findEqIdx] at h
  | cons e rest ih =>
    intro i h
    simp only [findEqIdx] at h
    split at h
    · next hre =>
      injection h with h0
      exact ⟨e, by rw [← h0]; rfl, hre⟩
    · next hre =>
      cases hf : findEqIdx d rest with
      | none => rw [hf] at h; simp at h
      | some j =>
        rw [hf] at h
        simp at h
        obtain ⟨e2, he2, hr2⟩ := ih hf
        have hi : i = j + 1 := by omega
        subst hi
        exact ⟨e2, by simpa using he2, hr2⟩

theorem intern_lookup (d : TSData) (s : Store) :
    ∃ e, dataAt (intern d s).2 (intern d s).1 = some e ∧ regEq d e := by
  simp only [intern, dataAt]
  split
  · next i hf =>
      obtain ⟨e, he, hr⟩ := findEqIdx_some hf
      exact ⟨e, by simpa using he, hr⟩
  · next hf =>
      exact ⟨d, by simpa using get?_append_singleton (init_states s).states d,
        rfl, rfl, rfl⟩

theorem is_2d_intern (d : TSData) (s : Store) :
    is_2d (intern d s).2 (intern d s).1 = d.is2d := by
  obtain ⟨e, he, hr⟩ := intern_lookup d s
  simp [is_2d, he, hr.2.2]

theorem finval_0 : ((0 : Fin 4) : ℕ) = 0 := rfl

theorem finval_1 : ((1 : Fin 4) : ℕ) = 1 := rfl

theorem finval_2 : ((2 : Fin 4) : ℕ) = 2 := rfl

theorem finval_3 : ((3 : Fin 4) : ℕ) = 3 := rfl

theorem matMul_id_left (m : Mat4) : matMul idMat m = m := by
  funext i j
  fin_cases i <;> simp [matMul, idMat]

theorem matMul_id_right (m : Mat4) : matMul m idMat = m := by
  funext j i
  fin_cases i <;> simp [matMul, idMat]

theorem transMat_mul (p q : Vec3) :
    matMul (transMat p) (transMat q) =
      transMat ⟨p.x + q.x, p.y + q.y, p.z + q.z⟩ := by
  funext i j
  fin_cases i <;> fin_cases j <;>
    simp [matMul, transMat, finval_0, finval_1, finval_2, finval_3]

theorem make2d_empty_eval (A : NumAlgebra) (p2 : Vec2) (rot : Scal)
    (sc2 : Vec2) (sh2 : Scal) :
    dataAt (make_pos_rotate_scale_shear2d A p2 rot sc2 sh2 emptyStore).2
           (make_pos_rotate_scale_shear2d A p2 rot sc2 sh2 emptyStore).1
      = some (componentData2d A p2 rot sc2 sh2)
  ∧ (make_pos_rotate_scale_shear2d A p2 rot sc2 sh2 emptyStore).1 = 2
  ∧ (make_pos_rotate_scale_shear2d A p2 rot sc2 sh2 emptyStore).2.identityState
      = some 0
  ∧ (make_pos_rotate_scale_shear2d A p2 rot sc2 sh2 emptyStore).2.invalidState
      = some 1 := by
  have h1 : ¬regEq (componentData2d A p2 rot sc2 sh2) idData := by
    intro h
    simpa [idData, componentData2d, check_uniform_scale2d] using h.2.2
  have h2 : ¬regEq (componentData2d A p2 rot sc2 sh2) invalidData := by
    intro h
    simpa [invalidData, componentData2d, check_uniform_scale2d] using h.2.1
  refine ⟨?_, ?_, ?_, ?_⟩ <;>
    simp [make_pos_rotate_scale_shear2d, intern, dataAt, init_states, emptyStore,
      findEqIdx, h1, h2]

theorem make2d_empty_dataAt (A : NumAlgebra) (p2 : Vec2) (rot : Scal)
    (sc2 : Vec2) (sh2 : Scal) :
    dataAt (make_pos_rotate_scale_shear2d A p2 rot sc2 sh2 emptyStore).2
           (make_pos_rotate_scale_shear2d A p2 rot sc2 sh2 emptyStore).1
      = some (componentData2d A p2 rot sc2 sh2) :=
  (make2d_empty_eval A p2 rot sc2 sh2).1

theorem scaleShearMat_unit : scaleShearMat ⟨1, 1, 1⟩ ⟨0, 0, 0⟩ = idMat := by
  funext i j
  fin_cases i <;> fin_cases j <;>
    norm_num [scaleShearMat, idMat, finval_0, finval_1, finval_2, finval_3,
      Fin.ext_iff]

theorem transMat_zero : transMat ⟨0, 0, 0⟩ = idMat := by
  funext i j
  fin_cases i <;> fin_cases j <;>
    norm_num [transMat, idMat, finval_0, finval_1, finval_2, finval_3,
      Fin.ext_iff]

theorem transMat123_ne_id : transMat ⟨1, 2, 3⟩ ≠ idMat := by
  intro h
  have h30 := congrFun (congrFun h 3) 0
  norm_num [transMat, idMat, finval_0, finval_3, Fin.ext_iff] at h30

/-- Claim C2: has_pos and has_mat are false exactly for the invalid
singleton: both equal the negation of is_invalid on every transform,
including singular and non-decomposable ones. -/
theorem C2_has_pos_has_mat_invalid_only :
    (∀ s p, has_pos s p = !(is_invalid s p) ∧ has_mat s p = !(is_invalid s p))
  ∧ (∀ s p, is_invalid s p = false → has_pos s p = true ∧ has_mat s p = true) := by
  constructor
  · intro s p
    exact ⟨rfl, rfl⟩
  · intro s p h
    simp [has_pos, has_mat, h]

theorem C2_witness :
    has_pos (make_identity emptyStore).2 (make_identity emptyStore).1 = true
  ∧ has_mat (make_identity emptyStore).2 (make_identity emptyStore).1 = true :=
  C2_has_pos_has_mat_invalid_only.2 (make_identity emptyStore).2
    (make_identity emptyStore).1 (by decide)

/-- Claim C4: get_inverse_mat returns a null pointer exactly when the
transform is singular, and otherwise returns the stored (non-null) inverse;
inverting a singular transform is not an error but yields the invalid
singleton. -/
theorem C4_get_inverse_mat_null_iff_singular (d : TSData)
    (hpres : d.invMat.isSome = !d.singular) :
    (get_inverse_mat d = none ↔ d.singular = true)
  ∧ (d.singular = false →
        get_inverse_mat d = d.invMat ∧ (get_inverse_mat d).isSome = true)
  ∧ (∀ (A : NumAlgebra) (s : Store) (a b : Ptr) (da : TSData),
        dataAt s a = some da → A.invertMat da.mat = none →
        is_invalid s a = false → is_invalid s b = false →
        cacheLookup da.invCompCache b = none →
        (invert_compose A s a b).1 = (make_invalid s).1) := by
  refine ⟨?_, ?_, ?_⟩
  · cases hs : d.singular with
    | true => simp [get_inverse_mat, is_singular, hs]
    | false =>
      rw [hs] at hpres
      cases hm : d.invMat with
      | none => rw [hm] at hpres; simp at hpres
      | some m => simp [get_inverse_mat, is_singular, hs, hm]
  · intro hs
    rw [hs] at hpres
    cases hm : d.invMat with
    | none => rw [hm] at hpres; simp at hpres
    | some m => simp [get_inverse_mat, is_singular, hs, hm]
  · intro A s a b da hda hsing hia hib hcl
    cases hdb : dataAt s b with
    | none => simp [invert_compose, hia, hib, hda, hdb]
    | some db => simp [invert_compose, hia, hib, hda, hdb, hcl, hsing]

theorem C4_witness :
    (get_inverse_mat idData = none ↔ idData.singular = true)
  ∧ (get_inverse_mat idData = idData.invMat
      ∧ (get_inverse_mat idData).isSome = true) :=
  ⟨(C4_get_inverse_mat_null_iff_singular idData (by decide)).1,
   (C4_get_inverse_mat_null_iff_singular idData (by decide)).2.1 (by decide)⟩

/-- Claim C6: the representation accessors report a contract violation
(returning the declared fallback) exactly when the guarding predicate is
false, and return the stored component when it is true: get_uniform_scale is
guarded by has_uniform_scale and returns _scale[0]; get_pos2d is guarded by
has_pos and is_2d and returns the x/y components of _pos. -/
theorem C6_accessor_contracts :
    (∀ d : TSData,
        (has_uniform_scale d = true →
          get_uniform_scale d = AssertResult.ok d.scale.x)
      ∧ (has_uniform_scale d = false →
          get_uniform_scale d = AssertResult.violation d.scale.x))
  ∧ (∀ (s : Store) (p : Ptr) (d : TSData), dataAt s p = some d →
        ((has_pos s p = true ∧ d.is2d = true) →
          get_pos2d s p = AssertResult.ok ⟨d.pos.x, d.pos.y⟩)
      ∧ ((has_pos s p = false ∨ d.is2d = false) →
          get_pos2d s p = AssertResult.violation ⟨0, 0⟩)) := by
  constructor
  · intro d
    constructor
    · intro h; simp [get_uniform_scale, h]
    · intro h; simp [get_uniform_scale, h]
  · intro s p d hd
    constructor
    · intro h
      simp [get_pos2d, hd, h.1, h.2]
    · intro h
      rcases h with h | h <;> simp [get_pos2d, hd, h]

theorem C6_witness :
    get_uniform_scale idData = AssertResult.ok idData.scale.x
  ∧ get_pos2d (make_identity emptyStore).2 (make_identity emptyStore).1
      = AssertResult.violation ⟨0, 0⟩ :=
  ⟨(C6_accessor_contracts.1 idData).1 (by decide),
   ((C6_accessor_contracts.2 (make_identity emptyStore).2
      (make_identity emptyStore).1 idData) (by decide)).2 (by decide)⟩

/-- Claim C7: lazy hash derivation is idempotent and referentially
transparent: a second get_hash call returns the identical value and mutates
nothing further; when the hash is already known, check_hash recomputes
nothing and get_hash returns the cached value; and the check-then-calculate
mutation leaves every comparison-relevant field, and hence compare_to,
unchanged. -/
theorem C7_get_hash_idempotent (d : TSData) :
    get_hash (get_hash d).2 = ((get_hash d).1, (get_hash d).2)
  ∧ (∀ h, d.hash = some h → check_hash d = d ∧ get_hash d = (h, d))
  ∧ ((check_hash d).mat = d.mat ∧ (check_hash d).valid = d.valid
      ∧ (check_hash d).is2d = d.is2d ∧ (check_hash d).pos = d.pos
      ∧ (check_hash d).scale = d.scale
      ∧ compare_to (check_hash d) d = 0) := by
  refine ⟨?_, ?_, ?_⟩
  · cases hd : d.hash <;> simp [get_hash, check_hash, calc_hash, hd]
  · intro h hd
    constructor
    · simp [check_hash, hd]
    · simp [get_hash, check_hash, hd]
  · refine ⟨?_, ?_, ?_, ?_, ?_, ?_⟩
    · cases hd : d.hash <;> simp [check_hash, calc_hash, hd]
    · cases hd : d.hash <;> simp [check_hash, calc_hash, hd]
    · cases hd : d.hash <;> simp [check_hash, calc_hash, hd]
    · cases hd : d.hash <;> simp [check_hash, calc_hash, hd]
    · cases hd : d.hash <;> simp [check_hash, calc_hash, hd]
    · unfold compare_to compareAt
      rw [compareList_eq_zero_iff]
      cases hd : d.hash with
      | none => simp [check_hash, calc_hash, hd, valueKey, matKey]
      | some h => simp [check_hash, hd]

theorem C7_witness :
    check_hash { d5a with hash := some 5 } = { d5a with hash := some 5 }
  ∧ get_hash { d5a with hash := some 5 } = (5, { d5a with hash := some 5 }) :=
  (C7_get_hash_idempotent { d5a with hash := some 5 }).2.1 5 (by decide)

/-- Claim C9: the diagnostic slot-count accessors return exactly the entry
counts: get_composition_cache_size equals get_composition_cache_num_entries
and get_invert_composition_cache_size equals
get_invert_composition_cache_num_entries, on every transform. -/
theorem C9_cache_size_eq_num_entries :
    ∀ d : TSData,
      get_composition_cache_size d = get_composition_cache_num_entries d
    ∧ get_invert_composition_cache_size d
        = get_invert_composition_cache_num_entries d :=
  fun _ => ⟨rfl, rfl⟩

/-- Claim C10: check_uniform_scale2d overwrites the z scale with the x scale
exactly when the x and y scales are nearly equal (also setting the uniform
bit), and leaves the scale vector untouched otherwise; consequently a 2-d
factory value with a nearly-uniform x/y scale reports that value as its
z-axis scale through get_scale, while one with differing x/y scales keeps
the constructor's z scale of 1. -/
theorem C10_check_uniform_scale2d (A : NumAlgebra) :
    (∀ d : TSData, isNearlyEqual d.scale.x d.scale.y = true →
        (check_uniform_scale2d d).scale = ⟨d.scale.x, d.scale.y, d.scale.x⟩
      ∧ (check_uniform_scale2d d).uniformScale = true)
  ∧ (∀ d : TSData, isNearlyEqual d.scale.x d.scale.y = false →
        (check_uniform_scale2d d).scale = d.scale)
  ∧ (∀ (p2 : Vec2) (rot : Scal) (sc2 : Vec2) (sh2 : Scal),
        isNearlyEqual sc2.x sc2.y = true →
        (get_scale (make_pos_rotate_scale_shear2d A p2 rot sc2 sh2 emptyStore).2
          (make_pos_rotate_scale_shear2d A p2 rot sc2 sh2 emptyStore).1).z
          = sc2.x)
  ∧ (∀ (p2 : Vec2) (rot : Scal) (sc2 : Vec2) (sh2 : Scal),
        isNearlyEqual sc2.x sc2.y = false →
        (get_scale (make_pos_rotate_scale_shear2d A p2 rot sc2 sh2 emptyStore).2
          (make_pos_rotate_scale_shear2d A p2 rot sc2 sh2 emptyStore).1).z
          = 1) := by
  refine ⟨?_, ?_, ?_, ?_⟩
  · intro d h
    simp [check_uniform_scale2d, h]
  · intro d h
    simp [check_uniform_scale2d, h]
  · intro p2 rot sc2 sh2 h
    simp [get_scale, make2d_empty_dataAt, componentData2d, check_uniform_scale2d, h]
  · intro p2 rot sc2 sh2 h
    simp [get_scale, make2d_empty_dataAt, componentData2d, check_uniform_scale2d, h]

theorem C10_witness :
    (check_uniform_scale2d { d5a with scale := ⟨2, 2, 1⟩ }).scale = ⟨2, 2, 2⟩
  ∧ (check_uniform_scale2d { d5a with scale := ⟨2, 2, 1⟩ }).uniformScale = true :=
  (C10_check_uniform_scale2d modelAlgebra).1 { d5a with scale := ⟨2, 2, 1⟩ }
    (by norm_num [isNearlyEqual, nearlyZero])

theorem twoDUnit_mat :
    (componentData2d modelAlgebra ⟨0, 0⟩ 0 ⟨1, 1⟩ 0).mat = idMat := by
  simp only [componentData2d]
  rw [(check_uniform_scale2d_proj _).1]
  show matMul (matMul (scaleShearMat ⟨1, 1, 1⟩ ⟨0, 0, 0⟩) idMat)
    (transMat ⟨0, 0, 0⟩) = idMat
  rw [scaleShearMat_unit, transMat_zero, matMul_id_left, matMul_id_left]

/-- Claim C1: make_identity and make_invalid return the same process-wide
singleton on every call, constructing the pair lazily on the first use of the
subsystem and leaving an initialized store untouched afterwards; is_identity
and is_invalid hold exactly on the singleton pointers; and a transform whose
matrix value equals the identity matrix (the 2-d unit scale) is still not
is_identity, because the check is pointer identity, not value equality. -/
theorem C1_singleton_pointer_identity :
    (∀ s : Store,
        make_identity ((make_identity s).2)
          = ((make_identity s).1, (make_identity s).2)
      ∧ make_invalid ((make_invalid s).2)
          = ((make_invalid s).1, (make_invalid s).2)
      ∧ (make_identity ((make_invalid s).2)).1 = (make_identity s).1
      ∧ (make_invalid ((make_identity s).2)).1 = (make_invalid s).1)
  ∧ (emptyStore.inited = false
      ∧ (make_identity emptyStore).2.inited = true
      ∧ (make_invalid emptyStore).2.inited = true)
  ∧ (∀ s : Store, s.inited = true →
        (make_identity s).2 = s ∧ (make_invalid s).2 = s)
  ∧ (∀ (s : Store) (p : Ptr),
        is_identity s p = true ↔ s.identityState = some p)
  ∧ (∀ (s : Store) (p : Ptr),
        is_invalid s p = true ↔ s.invalidState = some p)
  ∧ (∀ s : Store, s.inited = false →
        is_identity (make_identity s).2 (make_identity s).1 = true
      ∧ is_invalid (make_invalid s).2 (make_invalid s).1 = true
      ∧ is_invalid (make_identity s).2 (make_identity s).1 = false
      ∧ is_identity (make_invalid s).2 (make_invalid s).1 = false)
  ∧ (get_mat twoDUnit.2 twoDUnit.1 = idMat
      ∧ is_identity twoDUnit.2 twoDUnit.1 = false) := by
  refine ⟨?_, ⟨rfl, rfl, rfl⟩, ?_, ?_, ?_, ?_, ?_⟩
  · intro s
    refine ⟨?_, ?_, ?_, ?_⟩ <;>
      simp [make_identity, make_invalid, init_states_idem]
  · intro s h
    constructor <;> simp [make_identity, make_invalid, init_states_of_inited h]
  · intro s p
    simp [is_identity]
  · intro s p
    simp [is_invalid]
  · intro s h
    refine ⟨?_, ?_, ?_, ?_⟩ <;>
      simp [make_identity, make_invalid, is_identity, is_invalid, init_states, h]
  · obtain ⟨hd, hp, hid, hinv⟩ :=
      make2d_empty_eval modelAlgebra ⟨0, 0⟩ 0 ⟨1, 1⟩ 0
    rw [hp] at hd
    constructor
    · show get_mat (make_pos_rotate_scale_shear2d modelAlgebra ⟨0, 0⟩ 0 ⟨1, 1⟩ 0
        emptyStore).2 (make_pos_rotate_scale_shear2d modelAlgebra ⟨0, 0⟩ 0 ⟨1, 1⟩ 0
        emptyStore).1 = idMat
      simp [get_mat, has_mat, is_invalid, hd, hp, hinv, twoDUnit_mat]
    · show is_identity (make_pos_rotate_scale_shear2d modelAlgebra ⟨0, 0⟩ 0 ⟨1, 1⟩ 0
        emptyStore).2 (make_pos_rotate_scale_shear2d modelAlgebra ⟨0, 0⟩ 0 ⟨1, 1⟩ 0
        emptyStore).1 = false
      simp [is_identity, hid, hp]

theorem C1_witness :
    (make_identity (make_identity emptyStore).2).2 = (make_identity emptyStore).2
  ∧ (make_invalid (make_identity emptyStore).2).2 = (make_identity emptyStore).2 := by
  have h := C1_singleton_pointer_identity.2.2.1 (make_identity emptyStore).2 (by decide)
  exact ⟨h.1, h.2⟩

/-- Claim C3 as stated is false on the code: make_scale with a single uniform
scalar delegates to make_scale2d ("might as well call it a 2-d scale"), so the
resulting transform reports is_2d() true, not false: here at scale 2. -/
theorem C3_counterexample :
    is_2d (make_scale modelAlgebra 2 emptyStore).2
          (make_scale modelAlgebra 2 emptyStore).1 = true := by
  simp only [make_scale, make_scale2d, make_pos_rotate_scale2d,
    make_pos_rotate_scale_shear2d, is_2d_intern]
  rfl

/-- Claim C3, amended: every value built via a 2-d factory (including
make_scale with a single uniform scalar, which the source deliberately maps
to make_scale2d) has is_2d() true, and every value built with no 2-d factory
call — the other 3-d component factories and general 4x4-matrix construction,
including a matrix construction that yields the identity singleton — has
is_2d() false (for the identity-matrix case, on the initial store and on any
store whose identity singleton is well-formed). -/
theorem C3_is2d_by_factory (A : NumAlgebra) :
    (∀ (s : Store) (p2 : Vec2) (rot : Scal) (sc2 : Vec2) (sh2 : Scal),
        is_2d (make_pos_rotate_scale_shear2d A p2 rot sc2 sh2 s).2
              (make_pos_rotate_scale_shear2d A p2 rot sc2 sh2 s).1 = true)
  ∧ (∀ (s : Store) (p2 : Vec2),
        is_2d (make_pos2d A p2 s).2 (make_pos2d A p2 s).1 = true)
  ∧ (∀ (s : Store) (rot : Scal),
        is_2d (make_rotate2d A rot s).2 (make_rotate2d A rot s).1 = true)
  ∧ (∀ (s : Store) (c : Scal),
        is_2d (make_scale2d A c s).2 (make_scale2d A c s).1 = true)
  ∧ (∀ (s : Store) (c : Scal),
        is_2d (make_scale A c s).2 (make_scale A c s).1 = true)
  ∧ (∀ (s : Store) (pos hpr scale shear : Vec3),
        is_2d (make_pos_hpr_scale_shear A pos hpr scale shear s).2
              (make_pos_hpr_scale_shear A pos hpr scale shear s).1 = false)
  ∧ (∀ (s : Store) (pos hpr scale : Vec3),
        is_2d (make_pos_hpr_scale A pos hpr scale s).2
              (make_pos_hpr_scale A pos hpr scale s).1 = false)
  ∧ (∀ (s : Store) (pos : Vec3),
        is_2d (make_pos A pos s).2 (make_pos A pos s).1 = false)
  ∧ (∀ (s : Store) (hpr : Vec3),
        is_2d (make_hpr A hpr s).2 (make_hpr A hpr s).1 = false)
  ∧ (∀ (s : Store) (v : Vec3),
        is_2d (make_scale_vec3 A v s).2 (make_scale_vec3 A v s).1 = false)
  ∧ (∀ (s : Store) (sh : Vec3),
        is_2d (make_shear A sh s).2 (make_shear A sh s).1 = false)
  ∧ (∀ (s : Store) (m : Mat4), m ≠ idMat →
        is_2d (make_mat A m s).2 (make_mat A m s).1 = false)
  ∧ (∀ m : Mat4,
        is_2d (make_mat A m emptyStore).2 (make_mat A m emptyStore).1 = false)
  ∧ (∀ (s : Store) (m : Mat4),
        (s.inited = true → s.identityState = some 0 ∧ dataAt s 0 = some idData) →
        is_2d (make_mat A m s).2 (make_mat A m s).1 = false) := by
  refine ⟨?_, ?_, ?_, ?_, ?_, ?_, ?_, ?_, ?_, ?_, ?_, ?_, ?_, ?_⟩
  · intro s p2 rot sc2 sh2
    simp only [make_pos_rotate_scale_shear2d, is_2d_intern]
    rfl
  · intro s p2
    simp only [make_pos2d, make_pos_rotate_scale2d,
      make_pos_rotate_scale_shear2d, is_2d_intern]
    rfl
  · intro s rot
    simp only [make_rotate2d, make_pos_rotate_scale2d,
      make_pos_rotate_scale_shear2d, is_2d_intern]
    rfl
  · intro s c
    simp only [make_scale2d, make_pos_rotate_scale2d,
      make_pos_rotate_scale_shear2d, is_2d_intern]
    rfl
  · intro s c
    simp only [make_scale, make_scale2d, make_pos_rotate_scale2d,
      make_pos_rotate_scale_shear2d, is_2d_intern]
    rfl
  · intro s pos hpr scale shear
    simp only [make_pos_hpr_scale_shear, is_2d_intern]
    rfl
  · intro s pos hpr scale
    simp only [make_pos_hpr_scale, make_pos_hpr_scale_shear, is_2d_intern]
    rfl
  · intro s pos
    simp only [make_pos, make_pos_hpr_scale, make_pos_hpr_scale_shear,
      is_2d_intern]
    rfl
  · intro s hpr
    simp only [make_hpr, make_pos_hpr_scale, make_pos_hpr_scale_shear,
      is_2d_intern]
    rfl
  · intro s v
    simp only [make_scale_vec3, make_pos_hpr_scale, make_pos_hpr_scale_shear,
      is_2d_intern]
    rfl
  · intro s sh
    simp only [make_shear, make_pos_hpr_scale_shear, is_2d_intern]
    rfl
  · intro s m h
    simp only [make_mat]
    rw [if_neg h, is_2d_intern]
    rfl
  · intro m
    by_cases hm : m = idMat
    · subst hm
      simp [make_mat, make_identity, init_states, emptyStore, is_2d, dataAt,
        idData]
    · simp only [make_mat]
      rw [if_neg hm, is_2d_intern]
      rfl
  · intro s m hwf
    by_cases hm : m = idMat
    · subst hm
      simp only [make_mat, if_pos rfl, make_identity]
      cases hi : s.inited with
      | true =>
        obtain ⟨h1, h2⟩ := hwf hi
        rw [init_states_of_inited hi, h1]
        simp only [Option.getD_some]
        simp [is_2d, h2, idData]
      | false =>
        have hfresh : init_states s
            = ⟨[idData, invalidData], true, some 0, some 1⟩ := by
          simp [init_states, hi]
        rw [hfresh]
        simp [is_2d, dataAt, idData]
    · simp only [make_mat]
      rw [if_neg hm, is_2d_intern]
      rfl

theorem C3_witness :
    is_2d (make_mat modelAlgebra (transMat ⟨1, 2, 3⟩) emptyStore).2
          (make_mat modelAlgebra (transMat ⟨1, 2, 3⟩) emptyStore).1 = false
  ∧ is_2d (make_mat modelAlgebra idMat emptyStore).2
          (make_mat modelAlgebra idMat emptyStore).1 = false :=
  ⟨(C3_is2d_by_factory modelAlgebra).2.2.2.2.2.2.2.2.2.2.2.1 emptyStore
    (transMat ⟨1, 2, 3⟩) transMat123_ne_id,
   (C3_is2d_by_factory modelAlgebra).2.2.2.2.2.2.2.2.2.2.2.2.2 emptyStore
    idMat (fun h => absurd h (by decide))⟩

theorem quantize_zero (eps : Scal) : quantize eps 0 = 0 := by
  norm_num [quantize]

theorem quantize_uniq_half : quantize uniquifyMatrixEps (2000 : Scal)⁻¹ = 0 := by
  norm_num [quantize, uniquifyMatrixEps]
  decide

theorem quantize_equal_half : quantize equalEps (2000 : Scal)⁻¹ = 50 := by
  norm_num [quantize, equalEps]

/-- Claim C5: compare_to is a total order on transform values: it negates
under swapping its arguments (so the signs are opposite), it is transitive,
and repeated calls agree; and compare_to returning 0 does not imply
operator ==, which uses a slightly different comparison threshold: d5a and
d5b compare equal at the uniquify threshold yet are distinguished by
operator ==. -/
theorem C5_compare_to_total_order :
    (∀ a b : TSData, compare_to a b = -(compare_to b a))
  ∧ (∀ a b c : TSData,
        compare_to a b ≤ 0 → compare_to b c ≤ 0 → compare_to a c ≤ 0)
  ∧ (∀ (a b : TSData) (r1 r2 : ℤ),
        compare_to a b = r1 → compare_to a b = r2 → r1 = r2)
  ∧ (compare_to d5a d5b = 0 ∧ operatorEq d5a d5b = false) := by
  refine ⟨?_, ?_, ?_, ?_, ?_⟩
  · intro a b
    exact compareList_neg _ _
  · intro a b c h1 h2
    exact compareList_trans _ _ _ h1 h2
  · intro a b r1 r2 h1 h2
    rw [h1] at h2
    exact h2
  · unfold compare_to compareAt
    rw [compareList_eq_zero_iff]
    simp [valueKey, matKey, d5a, d5b, m5, idMat, quantize_zero,
      quantize_uniq_half]
  · simp only [operatorEq, decide_eq_false_iff_not]
    unfold compareAt
    rw [compareList_eq_zero_iff]
    intro h
    simp [valueKey, matKey, d5a, d5b, m5, idMat, quantize_zero,
      quantize_equal_half] at h

theorem C5_witness : compare_to d5a d5a ≤ 0 :=
  C5_compare_to_total_order.2.1 d5a d5a d5a
    (le_of_eq (by unfold compare_to compareAt; rw [compareList_eq_zero_iff]))
    (le_of_eq (by unfold compare_to compareAt; rw [compareList_eq_zero_iff]))

theorem storeCompCache_identityState (s : Store) (a b r : Ptr) :
    (storeCompCache s a b r).identityState = s.identityState := by
  unfold storeCompCache
  split <;> rfl

theorem c8_mi_ne_id (mi : Mat4)
    (hprod : matMul (transMat ⟨1, 2, 3⟩) mi = idMat) : mi ≠ idMat := by
  intro h
  rw [h, matMul_id_right] at hprod
  exact transMat123_ne_id hprod

theorem c8_mi_ne_t (mi : Mat4)
    (hprod : matMul (transMat ⟨1, 2, 3⟩) mi = idMat) :
    mi ≠ transMat ⟨1, 2, 3⟩ := by
  intro h
  rw [h, transMat_mul] at hprod
  have h30 := congrFun (congrFun hprod 3) 0
  norm_num [transMat, idMat, finval_0, finval_3, Fin.ext_iff] at h30

theorem c8_componentData (A : NumAlgebra) (mi : Mat4)
    (hrot : A.hprToRot ⟨0, 0, 0⟩ = idMat)
    (hinv : A.invertMat (transMat ⟨1, 2, 3⟩) = some mi) :
    componentData A ⟨1, 2, 3⟩ ⟨0, 0, 0⟩ ⟨1, 1, 1⟩ vzero = c8td mi := by
  have hm : composeMat A ⟨1, 2, 3⟩ ⟨0, 0, 0⟩ ⟨1, 1, 1⟩ ⟨0, 0, 0⟩
      = transMat ⟨1, 2, 3⟩ := by
    simp only [composeMat]
    rw [scaleShearMat_unit, hrot, matMul_id_left, matMul_id_left]
  norm_num [componentData, vzero, hm, hinv, check_uniform_scale, c8td,
    isNearlyEqual, nearlyZero, shearAlmostZero]

theorem c8_scenT (A : NumAlgebra) (mi : Mat4)
    (hrot : A.hprToRot ⟨0, 0, 0⟩ = idMat)
    (hinv : A.invertMat (transMat ⟨1, 2, 3⟩) = some mi) :
    scenT A = (2, c8store1 mi) := by
  have h1 : ¬regEq (c8td mi) idData := fun h => transMat123_ne_id h.1
  have h2 : ¬regEq (c8td mi) invalidData := by
    intro h
    simpa [c8td, invalidData] using h.2.1
  simp only [scenT, make_pos_hpr_scale, make_pos_hpr_scale_shear,
    c8_componentData A mi hrot hinv]
  simp [intern, init_states, emptyStore, findEqIdx, h1, h2, c8store1]

theorem c8_scenInv (A : NumAlgebra) (mi : Mat4)
    (hrot : A.hprToRot ⟨0, 0, 0⟩ = idMat)
    (hinv : A.invertMat (transMat ⟨1, 2, 3⟩) = some mi)
    (hprod : matMul (transMat ⟨1, 2, 3⟩) mi = idMat) :
    scenInv A = (3, c8store2 A mi) := by
  have g1 : ¬regEq (matData A mi) idData := fun h => c8_mi_ne_id mi hprod h.1
  have g2 : ¬regEq (matData A mi) invalidData := by
    intro h
    simpa [matData, invalidData] using h.2.1
  have g3 : ¬regEq (matData A mi) (c8td mi) := fun h => c8_mi_ne_t mi hprod h.1
  have hmm : matMul idData.mat mi = mi := matMul_id_left mi
  have pc1 : (c8td mi).mat = transMat ⟨1, 2, 3⟩ := rfl
  have pc2 : (c8td mi).invCompCache = [] := rfl
  have hd2 : dataAt (c8store1 mi) 2 = some (c8td mi) := rfl
  have hd0 : dataAt (c8store1 mi) 0 = some idData := rfl
  have hcl : cacheLookup (c8td mi).invCompCache 0 = none := rfl
  have hstates : (c8store1 mi).states = [idData, invalidData, c8td mi] := rfl
  have hsid : (c8store1 mi).identityState = some 0 := rfl
  have hsinv : (c8store1 mi).invalidState = some 1 := rfl
  simp only [scenInv, c8_scenT A mi hrot hinv, get_inverse, make_identity,
    init_states_of_inited (rfl : (c8store1 mi).inited = true), hsid,
    Option.getD_some]
  simp only [invert_compose, is_invalid, hsinv, hd2, hd0, hcl, pc1, hinv, hmm]
  norm_num [make_mat, if_neg (c8_mi_ne_id mi hprod), intern,
    init_states_of_inited (rfl : (c8store1 mi).inited = true), hstates, pc2,
    findEqIdx, g1, g2, g3, storeInvCompCache, dataAt, c8store2, c8td2]
  exact ⟨rfl, hsid, hsinv⟩

/-- Claim C8 (the spec example scenario): for the transform built by
make_pos_hpr_scale((1,2,3),(0,0,0),(1,1,1)) with any external numeric algebra
that is correct on this input (zero rotation maps to the identity rotation,
and the translation matrix has the two-sided inverse mi), get_mat returns the
pure translation matrix by (1,2,3); composing with make_identity() returns
the pointer-identical instance and store; and composing the get_inverse
result with the transform returns the identity singleton itself. -/
theorem C8_pos_hpr_scale_example (A : NumAlgebra) (mi : Mat4)
    (hrot : A.hprToRot ⟨0, 0, 0⟩ = idMat)
    (hinv : A.invertMat (transMat ⟨1, 2, 3⟩) = some mi)
    (hprod : matMul (transMat ⟨1, 2, 3⟩) mi = idMat) :
    get_mat (scenT A).2 (scenT A).1 = transMat ⟨1, 2, 3⟩
  ∧ compose A (scenT A).2 (scenT A).1 ((make_identity (scenT A).2).1)
      = ((scenT A).1, (scenT A).2)
  ∧ is_identity (scenBack A).2 (scenBack A).1 = true := by
  have hsid : (c8store1 mi).identityState = some 0 := rfl
  have hsinv : (c8store1 mi).invalidState = some 1 := rfl
  have hd2 : dataAt (c8store1 mi) 2 = some (c8td mi) := rfl
  have pc1 : (c8td mi).mat = transMat ⟨1, 2, 3⟩ := rfl
  refine ⟨?_, ?_, ?_⟩
  · rw [c8_scenT A mi hrot hinv]
    simp [get_mat, has_mat, is_invalid, hsinv, hd2, pc1]
  · rw [c8_scenT A mi hrot hinv]
    simp [make_identity, init_states_of_inited (rfl : (c8store1 mi).inited = true),
      compose, is_identity, hsid]
  · have hb1 : (c8store2 A mi).identityState = some 0 := rfl
    have hb2 : (c8store2 A mi).invalidState = some 1 := rfl
    have hd3 : dataAt (c8store2 A mi) 3 = some (matData A mi) := rfl
    have hd2b : dataAt (c8store2 A mi) 2 = some (c8td2 mi) := rfl
    have hclb : cacheLookup (matData A mi).compCache 2 = none := rfl
    have hmat3 : (matData A mi).mat = mi := rfl
    have hmat2 : (c8td2 mi).mat = transMat ⟨1, 2, 3⟩ := rfl
    rw [scenBack, c8_scenInv A mi hrot hinv hprod, c8_scenT A mi hrot hinv]
    simp only [compose, is_identity, is_invalid, hb1, hb2, hd3, hd2b, hclb,
      hmat3, hmat2, hprod]
    norm_num [make_mat, make_identity,
      init_states_of_inited (rfl : (c8store2 A mi).inited = true), hb1,
      storeCompCache_identityState]

theorem finval3_0 : ((0 : Fin 3) : ℕ) = 0 := rfl

theorem finval3_1 : ((1 : Fin 3) : ℕ) = 1 := rfl

theorem finval3_2 : ((2 : Fin 3) : ℕ) = 2 := rfl

theorem det4_transMat123 : det4 (transMat ⟨1, 2, 3⟩) = 1 := by
  norm_num [det4, det3, minorAt, skipIdx, transMat, finval_0, finval_1,
    finval_2, finval_3, finval3_0, finval3_1, finval3_2, Fin.ext_iff]

theorem invert4_transMat123 :
    invert4 (transMat ⟨1, 2, 3⟩) = some (transMat ⟨-1, -2, -3⟩) := by
  simp only [invert4, det4_transMat123]
  rw [if_neg (by norm_num : ¬(1 : Scal) = 0)]
  congr 1
  funext i j
  fin_cases i <;> fin_cases j <;>
    norm_num [cofSign, det3, minorAt, skipIdx, transMat, finval_0, finval_1,
      finval_2, finval_3, finval3_0, finval3_1, finval3_2, Fin.ext_iff]

theorem c8w_prod :
    matMul (transMat ⟨1, 2, 3⟩) (transMat ⟨-1, -2, -3⟩) = idMat := by
  rw [transMat_mul]
  norm_num
  exact transMat_zero

theorem C8_witness :
    get_mat (scenT modelAlgebra).2 (scenT modelAlgebra).1 = transMat ⟨1, 2, 3⟩
  ∧ compose modelAlgebra (scenT modelAlgebra).2 (scenT modelAlgebra).1
      ((make_identity (scenT modelAlgebra).2).1)
      = ((scenT modelAlgebra).1, (scenT modelAlgebra).2)
  ∧ is_identity (scenBack modelAlgebra).2 (scenBack modelAlgebra).1 = true :=
  C8_pos_hpr_scale_example modelAlgebra (transMat ⟨-1, -2, -3⟩) rfl
    invert4_transMat123 c8w_prod

end Panda
